import Mathlib

/-!
Verification of the GhostCrew / pentestagent tool layer.

Shallow embedding conventions:
* Python strings are Lean `String`; Python string truthiness (`if s:`) is the
  test `s ≠ ""`, and `a or b` on strings is `pyOrS`.
* A Python tool `arguments` dictionary is a structure of `Option` fields, one
  per schema key; a missing key is `none` and `arguments.get(k, d)` is `getD d`.
* The worker pool, the LLM collaborator, the filesystem and the regex engine
  are external collaborators of the code under verification; they are
  modelled as explicit parameters (oracle functions / state records).
  Observable collaborator calls made by a function are returned as part of
  its outcome record so that call order and call arguments can be stated.
* Fallible Python code that may raise past a handler returns `Except PyErr`.
-/

namespace Spec2Proof

/-- Python `a or b` for strings: `b` when `a` is empty (falsy), else `a`. -/
def pyOrS (a b : String) : String := if a = "" then b else a

/-- Python `sep.join(parts)`. -/
def pyJoin (sep : String) : List String → String
  | [] => ""
  | [x] => x
  | x :: y :: xs => x ++ sep ++ pyJoin sep (y :: xs)

/-- A Python exception escaping a tool function (modelled outcome of `raise`). -/
inductive PyErr where
  | keyError : String → PyErr
deriving DecidableEq

namespace Crew

/-- One task record as exposed by `pool.get_workers()` after the final drain:
the fields of a worker that `finish_fn` reads (`w.id`, `w.task`, `w.result`,
`w.error`).  An unset optional text field is the empty string (falsy). -/
structure WorkerRec where
  id : String
  task : String
  result : String
  error : String
deriving DecidableEq

/-- The LLM collaborator response: `content` text and an optional `usage`
mapping (an association list standing for the Python dict). -/
structure LLMResponse where
  content : String
  usage : Option (List (String × Nat))
deriving DecidableEq

/-- Observable collaborator calls made by `finish_fn`, in order. -/
inductive CrewEvent where
  | waitForAll : CrewEvent
  | generate : String → String → CrewEvent
deriving DecidableEq

/-- The pool state read and written by `finish_fn`: the worker records it
obtains from `get_workers` after `wait_for(None)`, and the `finish_tokens`
accumulator. -/
structure PoolState where
  workers : List WorkerRec
  finishTokens : Nat
deriving DecidableEq

/-- Everything observable about one `finish_fn` call: the returned string, the
resulting `finish_tokens`, and the collaborator calls in order. -/
structure FinishOutcome where
  output : String
  finishTokens : Nat
  events : List CrewEvent
deriving DecidableEq

/-- Python `d.get(k, dflt)` on a `str -> int` dict modelled as an association
list. -/
def pyDictGetNat (u : List (String × Nat)) (k : String) (d : Nat) : Nat :=
  match u.find? (fun p => p.1 == k) with
  | some p => p.2
  | none => d

/-- The labelled block `finish_fn` renders for one worker: a block for a
non-empty `result`, else a block for a non-empty `error`, else nothing. -/
def workerBlock (w : WorkerRec) : Option String :=
  if w.result ≠ "" then some ("## " ++ w.id ++ ": " ++ w.task ++ "\n" ++ w.result)
  else if w.error ≠ "" then some ("## " ++ w.id ++ ": " ++ w.task ++ "\nError: " ++ w.error)
  else none

/-- The fixed system instruction of the synthesis call in `finish_fn`. -/
def finishSystemPrompt : String :=
  "You are synthesizing penetration test results. Be factual, clear, and concise."

/-- The synthesis prompt built by `finish_fn` (its triple-quoted f-string). -/
def synthPrompt (context : String) (blocks : List String) : String :=
  "Synthesize these agent findings into a clear, concise summary.\n\nContext: " ++
    pyOrS context "Penetration test task completed." ++
    "\n\nAgent Results:\n" ++ pyJoin "\n" blocks ++
    "\n\nProvide a unified summary of what was accomplished and key findings."

/-- `finish_fn` from `pentestagent/agents/crew/tools.py`: wait for all agents,
gather results, and either return the context / a fixed fallback (no LLM call)
or synthesize via one `llm.generate` call, storing the reported token usage.
`llm` maps (system prompt, user message) to the collaborator response; the
Python truthiness test `if response.usage:` is false for `None` and for an
empty mapping. -/
def finish_fn (llm : String → String → LLMResponse) (pool : PoolState)
    (contextArg : Option String) : FinishOutcome :=
  let context := contextArg.getD ""
  if pool.workers = [] then
    { output := pyOrS context "Task completed. No agents were spawned.",
      finishTokens := pool.finishTokens, events := [CrewEvent.waitForAll] }
  else
    let resultsText := pool.workers.filterMap workerBlock
    if resultsText = [] then
      { output := pyOrS context "Task completed. Agents ran but produced no results.",
        finishTokens := pool.finishTokens, events := [CrewEvent.waitForAll] }
    else
      let prompt := synthPrompt context resultsText
      let response := llm finishSystemPrompt prompt
      { output := response.content,
        finishTokens :=
          match response.usage with
          | none => pool.finishTokens
          | some u => if u = [] then pool.finishTokens else pyDictGetNat u "total_tokens" 0,
        events := [CrewEvent.waitForAll, CrewEvent.generate finishSystemPrompt prompt] }

/-- Arguments dictionary of the `spawn_agent` tool. -/
structure SpawnArgs where
  task : Option String
  priority : Option Int
  depends_on : Option (List String)

/-- Observable outcome of one `spawn_agent_fn` call: the `pool.spawn`
invocation it performed, if any (with its arguments), and the returned text. -/
structure SpawnOutcome where
  spawned : Option (String × Int × List String)
  output : String
deriving DecidableEq

/-- `spawn_agent_fn` from `pentestagent/agents/crew/tools.py`.  `alloc` models
the (unseen) `pool.spawn`, returning the freshly allocated agent id for the
given task, priority and dependency list. -/
def spawn_agent_fn (alloc : String → Int → List String → String)
    (args : SpawnArgs) : SpawnOutcome :=
  let task := args.task.getD ""
  let priority := args.priority.getD 1
  let dependsOn := args.depends_on.getD []
  if task = "" then { spawned := none, output := "Error: task is required" }
  else
    let agentId := alloc task priority dependsOn
    { spawned := some (task, priority, dependsOn),
      output := "Spawned " ++ agentId ++ ": " ++ task }

/-- One strategy candidate (all five keys are schema-required). -/
structure Candidate where
  id : String
  name : String
  pros : String
  cons : String
  risk : String
deriving DecidableEq

/-- Arguments dictionary of the `formulate_strategy` tool. -/
structure StrategyArgs where
  problem : Option String
  candidates : Option (List Candidate)
  selected_id : Option String
  rationale : Option String
  feasible : Option Bool

/-- The line list `formulate_strategy_fn` builds for a feasible decision. -/
def decisionLines (candidates : List Candidate) (selected : Candidate)
    (problem selectedId rationale : String) : List String :=
  ["## Strategic Decision: " ++ selected.name,
   "**Problem:** " ++ problem, "", "**Considered Options:**"] ++
    candidates.flatMap (fun c =>
      ["- **" ++ c.name ++ "** " ++ (if c.id == selectedId then "(SELECTED)" else ""),
       "  - Pros: " ++ c.pros, "  - Cons: " ++ c.cons, "  - Risk: " ++ c.risk]) ++
    ["", "**Rationale:** " ++ rationale]

/-- `formulate_strategy_fn` from `pentestagent/agents/crew/tools.py`: a pure
function of its arguments (it touches no pool state and schedules nothing). -/
def formulate_strategy_fn (args : StrategyArgs) : String :=
  let problem := args.problem.getD ""
  let candidates := args.candidates.getD []
  let selectedId := args.selected_id.getD ""
  let rationale := args.rationale.getD ""
  let feasible := args.feasible.getD true
  if problem = "" then "Error: problem is required."
  else if feasible = false then
    "## Strategic Decision: TERMINATE MISSION\n**Problem:** " ++ problem ++
      "\n**Rationale:** " ++ rationale ++ "\n\nMission marked as infeasible."
  else if candidates = [] ∨ selectedId = "" then
    "Error: candidates and selected_id are required when feasible=True."
  else
    match candidates.find? (fun c => c.id == selectedId) with
    | none => "Error: Selected ID \x27" ++ selectedId ++ "\x27 not found in candidates."
    | some selected => pyJoin "\n" (decisionLines candidates selected problem selectedId rationale)

end Crew

namespace Completion

/-- Lowercase hex digit of `n % 16` (Python `%x` formatting). -/
def hexDig (n : Nat) : Char :=
  if n < 10 then Char.ofNat (48 + n) else Char.ofNat (87 + n)

/-- Four lowercase hex digits of `n < 0x10000` (Python `\u%04x` escapes). -/
def hex4 (n : Nat) : List Char :=
  [hexDig (n / 4096 % 16), hexDig (n / 256 % 16), hexDig (n / 16 % 16), hexDig (n % 16)]

/-- Value of one hex digit character, if it is one. -/
def hexVal (c : Char) : Option Nat :=
  if 48 ≤ c.toNat ∧ c.toNat ≤ 57 then some (c.toNat - 48)
  else if 97 ≤ c.toNat ∧ c.toNat ≤ 102 then some (c.toNat - 87)
  else if 65 ≤ c.toNat ∧ c.toNat ≤ 70 then some (c.toNat - 55)
  else none

/-- Modelled from the spec: the JSON string-escaping of the Python `json`
standard library (an external collaborator, not repository code): the two
mandatory escapes, the short control escapes, and `\u00xx` for the remaining
control characters.  (CPython additionally escapes non-ASCII characters; that
is an equivalent wire encoding of the same string value, so the model emits
those characters literally.) -/
def escChar (c : Char) : List Char :=
  if c = '"' then ['\\', '"']
  else if c = '\\' then ['\\', '\\']
  else if c = '\n' then ['\\', 'n']
  else if c = '\t' then ['\\', 't']
  else if c = '\r' then ['\\', 'r']
  else if c = Char.ofNat 8 then ['\\', 'b']
  else if c = Char.ofNat 12 then ['\\', 'f']
  else if c.toNat < 32 then '\\' :: 'u' :: hex4 c.toNat
  else [c]

/-- A JSON string literal (characters of `json.dumps` of a Python string). -/
def jstrL (s : String) : List Char := '"' :: (s.data.flatMap escChar) ++ ['"']

/-- Body of a JSON array of strings with the `json.dumps` default item
separator `", "`. -/
def renderStrListBody : List String → List Char
  | [] => []
  | [x] => jstrL x
  | x :: y :: xs => jstrL x ++ ',' :: ' ' :: renderStrListBody (y :: xs)

/-- A JSON array of strings as rendered by `json.dumps`. -/
def jlistL (xs : List String) : List Char := '[' :: renderStrListBody xs ++ [']']

/-- The inverse of the short escapes of `escChar`: which character a
one-letter escape sequence stands for (`none` for an unknown escape). -/
def escDecode (e : Char) : Option Char :=
  if e = '"' then some '"'
  else if e = '\\' then some '\\'
  else if e = 'n' then some '\n'
  else if e = 't' then some '\t'
  else if e = 'r' then some '\r'
  else if e = 'b' then some (Char.ofNat 8)
  else if e = 'f' then some (Char.ofNat 12)
  else none

/-- Modelled from the spec: the string-literal scanner of Python `json.loads`
(external standard library), reading the characters after the opening quote up
to the closing quote and undoing the escapes of `escChar`; an unknown escape
or a truncated input is a decode error. -/
def scanJString : List Char → Option (List Char × List Char)
  | [] => none
  | '"' :: rest => some ([], rest)
  | '\\' :: 'u' :: h1 :: h2 :: h3 :: h4 :: rest =>
    match hexVal h1, hexVal h2, hexVal h3, hexVal h4 with
    | some a, some b, some c2, some d =>
      (scanJString rest).map
        (fun p => (Char.ofNat (4096 * a + 256 * b + 16 * c2 + d) :: p.1, p.2))
    | _, _, _, _ => none
  | '\\' :: e :: rest =>
    match escDecode e with
    | some c2 => (scanJString rest).map (fun p => (c2 :: p.1, p.2))
    | none => none
  | ['\\'] => none
  | c :: rest => (scanJString rest).map (fun p => (c :: p.1, p.2))

/-- Parse one JSON string literal from the front of the input. -/
def parseJStr (l : List Char) : Option (String × List Char) :=
  match l with
  | '"' :: rest => (scanJString rest).map (fun p => (String.mk p.1, p.2))
  | _ => none

/-- Parse the non-empty element list of a JSON string array (after `[`),
with fuel bounding the element count. -/
def scanStrListElems : Nat → List Char → Option (List String × List Char)
  | 0, _ => none
  | fuel + 1, l =>
    match parseJStr l with
    | none => none
    | some (s, rest) =>
      match rest with
      | ']' :: rest2 => some ([s], rest2)
      | ',' :: ' ' :: rest2 => (scanStrListElems fuel rest2).map (fun p => (s :: p.1, p.2))
      | _ => none

/-- Parse a JSON array of strings from the front of the input. -/
def scanStrList (l : List Char) : Option (List String × List Char) :=
  match l with
  | '[' :: ']' :: rest => some ([], rest)
  | '[' :: rest => scanStrListElems rest.length rest
  | _ => none

/-- Drop an expected literal from the front of the input. -/
def stripL (lit l : List Char) : Option (List Char) :=
  if lit.isPrefixOf l then some (l.drop lit.length) else none

/-- `CompletionReport` from `ghostcrew/tools/completion/__init__.py`:
structured completion report for task results. -/
structure CompletionReport where
  status : String
  summary : String
  findings : List String
  artifacts : List String
  recommendations : List String
deriving DecidableEq

/-- Python `xs or []` for an optional list argument (the constructor receives
either an absent argument, modelled `none` like its `None` default, or a
list). -/
def pyOrL : Option (List String) → List String
  | none => []
  | some l => if l = [] then [] else l

/-- The `CompletionReport` constructor: `self.findings = findings or []` and
likewise for the other list fields. -/
def CompletionReport.make (status : String) (summary : String)
    (findings artifacts recommendations : Option (List String)) : CompletionReport :=
  { status := status, summary := summary, findings := pyOrL findings,
    artifacts := pyOrL artifacts, recommendations := pyOrL recommendations }

/-- `CompletionReport.to_json`: `json.dumps(self.to_dict())`, where `to_dict`
lists the five fields in declaration order; rendered with the `json.dumps`
default separators. -/
def CompletionReport.to_json (r : CompletionReport) : String :=
  "\x7b\"status\": " ++ String.mk (jstrL r.status) ++
    ", \"summary\": " ++ String.mk (jstrL r.summary) ++
    ", \"findings\": " ++ String.mk (jlistL r.findings) ++
    ", \"artifacts\": " ++ String.mk (jlistL r.artifacts) ++
    ", \"recommendations\": " ++ String.mk (jlistL r.recommendations) ++ "\x7d"

/-- Parser for the completion-report wire format produced by `to_json`
(model of `json.loads` restricted to that format; any other input is a decode
error, `none`). -/
def parseReportFields (l : List Char) :
    Option (String × String × List String × List String × List String) :=
  (stripL ("\x7b\"status\": ").data l).bind (fun l1 =>
    (parseJStr l1).bind (fun p1 =>
      (stripL (", \"summary\": ").data p1.2).bind (fun l3 =>
        (parseJStr l3).bind (fun p2 =>
          (stripL (", \"findings\": ").data p2.2).bind (fun l5 =>
            (scanStrList l5).bind (fun p3 =>
              (stripL (", \"artifacts\": ").data p3.2).bind (fun l7 =>
                (scanStrList l7).bind (fun p4 =>
                  (stripL (", \"recommendations\": ").data p4.2).bind (fun l9 =>
                    (scanStrList l9).bind (fun p5 =>
                      (stripL ("\x7d").data p5.2).bind (fun l11 =>
                        if l11 = [] then
                          some (p1.1, p2.1, p3.1, p4.1, p5.1)
                        else none)))))))))))

/-- `CompletionReport.from_json`: `json.loads` the string and pass the decoded
mapping to the constructor as keyword arguments. -/
def CompletionReport.from_json (s : String) : Option CompletionReport :=
  (parseReportFields s.data).map (fun f =>
    CompletionReport.make f.1 f.2.1 (some f.2.2.1) (some f.2.2.2.1) (some f.2.2.2.2))

/-- Sentinel value to signal task completion. -/
def TASK_COMPLETE_SIGNAL : String := "__TASK_COMPLETE__"

/-- Arguments dictionary of the control `finish` tool. -/
structure FinishToolArgs where
  status : Option String
  summary : Option String
  findings : Option (List String)
  artifacts : Option (List String)
  recommendations : Option (List String)

/-- The report the control `finish` tool builds from its arguments, with its
`arguments.get` defaults. -/
def reportOfArgs (args : FinishToolArgs) : CompletionReport :=
  CompletionReport.make (args.status.getD "success") (args.summary.getD "Task completed.")
    (some (args.findings.getD [])) (some (args.artifacts.getD []))
    (some (args.recommendations.getD []))

/-- The control `finish` tool from `ghostcrew/tools/completion/__init__.py`:
returns the completion signal joined by a colon to the JSON-encoded report. -/
def finish (args : FinishToolArgs) : String :=
  TASK_COMPLETE_SIGNAL ++ ":" ++ (reportOfArgs args).to_json

/-- `is_task_complete`: `result.startswith(TASK_COMPLETE_SIGNAL)`. -/
def is_task_complete (result : String) : Bool :=
  TASK_COMPLETE_SIGNAL.data.isPrefixOf result.data

/-- `extract_completion_summary` (legacy support): strip the sentinel and the
colon, then the parsed report summary, or the raw payload on a decode error. -/
def extract_completion_summary (result : String) : String :=
  if is_task_complete result then
    match CompletionReport.from_json
        (String.mk (result.data.drop (TASK_COMPLETE_SIGNAL.length + 1))) with
    | some report => report.summary
    | none => String.mk (result.data.drop (TASK_COMPLETE_SIGNAL.length + 1))
  else result

/-- `extract_completion_report`: strip the sentinel and the colon and parse the
report; a decode error wraps the raw payload in a legacy report. -/
def extract_completion_report (result : String) : Option CompletionReport :=
  if is_task_complete result then
    match CompletionReport.from_json
        (String.mk (result.data.drop (TASK_COMPLETE_SIGNAL.length + 1))) with
    | some report => some report
    | none => some (CompletionReport.make "success"
        (String.mk (result.data.drop (TASK_COMPLETE_SIGNAL.length + 1))) none none none)
  else none

end Completion

namespace Fsys

/-- The filesystem collaborator as seen by the filesystem tools: which
(resolved) paths fail the workspace-root check of `_validate_path` (raising
`ValueError`), which paths are regular files with which decoded text content
(the `utf-8` / `latin-1` fallback read always decodes), and which are
directories. -/
structure FileSystem where
  wsViolation : String → Bool
  files : String → Option String
  dirs : String → Bool

/-- `path.exists()`: a file or a directory. -/
def FileSystem.existsPath (fs : FileSystem) (p : String) : Bool :=
  (fs.files p).isSome || fs.dirs p

/-- Python `str.splitlines()` for newline-separated text. -/
def pySplitlines (s : String) : List String :=
  if s = "" then []
  else
    let parts := s.splitOn "\n"
    if s.endsWith "\n" then parts.dropLast else parts

/-- Python `f"{i:4d}"`. -/
def pyFmt4d (n : Nat) : String :=
  let s := toString n
  if s.length < 4 then String.mk (List.replicate (4 - s.length) ' ') ++ s else s

/-- Python rendering of an optional line number inside an f-string
(`None` renders as the text `None`). -/
def optIntStr : Option Int → String
  | none => "None"
  | some n => toString n

/-- Arguments dictionary of the `read_file` tool (`path` is schema-required
and read with `arguments["path"]`, the line numbers with `.get`). -/
structure ReadArgs where
  path : Option String
  start_line : Option Int
  end_line : Option Int

/-- `read_file` from `ghostcrew/tools/filesystem/__init__.py`.  A missing
`path` key makes `arguments["path"]` raise `KeyError` before the protective
`try` block; every other outcome is a returned string. -/
def read_file (fs : FileSystem) (args : ReadArgs) : Except PyErr String :=
  match args.path with
  | none => Except.error (PyErr.keyError "path")
  | some filepath =>
    Except.ok (
      if fs.wsViolation filepath then
        "Error: Path \x27" ++ filepath ++ "\x27 is outside workspace root"
      else if fs.existsPath filepath = false then "Error: File not found: " ++ filepath
      else if (fs.files filepath).isNone then "Error: Not a file: " ++ filepath
      else
        let content := (fs.files filepath).getD ""
        let lines := pySplitlines content
        let totalLines := lines.length
        let startIdx0 : Int :=
          match args.start_line with
          | none => 0
          | some n => if n = 0 then 0 else n - 1
        let endIdx0 : Int :=
          match args.end_line with
          | none => (totalLines : Int)
          | some n => if n = 0 then (totalLines : Int) else n
        let startIdx : Nat := (max 0 (min startIdx0 (totalLines : Int))).toNat
        let endIdx : Nat := (max 0 (min endIdx0 (totalLines : Int))).toNat
        if startIdx ≥ endIdx then
          "Error: Invalid line range " ++ optIntStr args.start_line ++ "-" ++
            optIntStr args.end_line ++ " (file has " ++ toString totalLines ++ " lines)"
        else
          let selected := (lines.drop startIdx).take (endIdx - startIdx)
          let numbered := (List.enumFrom (startIdx + 1) selected).map
            (fun p => pyFmt4d p.1 ++ " | " ++ p.2)
          let header := "File: " ++ filepath ++ " (lines " ++ toString (startIdx + 1) ++
            "-" ++ toString endIdx ++ " of " ++ toString totalLines ++ ")"
          header ++ "\n" ++ String.mk (List.replicate 60 '─') ++ "\n" ++ pyJoin "\n" numbered)

/-- Scanning helper for Python `content.count(old)`: walk the content one
character at a time; a positive `skip` means the position still lies inside
the previous non-overlapping match. -/
def pyCountAux (needle : List Char) : List Char → Nat → Nat
  | [], _ => 0
  | _ :: t, skip + 1 => pyCountAux needle t skip
  | c :: t, 0 =>
    if needle.isPrefixOf (c :: t) then 1 + pyCountAux needle t (needle.length - 1)
    else pyCountAux needle t 0

/-- Python `content.count(old)`: non-overlapping occurrences, scanning left to
right; the empty needle counts `len(content) + 1`. -/
def pyCountSub (h needle : List Char) : Nat :=
  if needle = [] then h.length + 1 else pyCountAux needle h 0

/-- Python `content.replace(old, new, 1)`: replace the leftmost occurrence. -/
def pyReplace1 (h old new : List Char) : List Char :=
  if old = [] then new ++ h
  else
    match h with
    | [] => []
    | c :: t =>
      if old.isPrefixOf (c :: t) then new ++ (c :: t).drop old.length
      else c :: pyReplace1 t old new

/-- Python `s[:100] + "..."` preview used in the replace success message. -/
def pyPreview (s : String) : String :=
  if 100 < s.length then String.mk (s.data.take 100) ++ "..." else s

/-- Modelled from the spec: Python `repr` of a string (standard library),
abbreviated to quote wrapping; the exact escaping inside the success message
is irrelevant to the claims. -/
def pyRepr (s : String) : String := "\x27" ++ s ++ "\x27"

/-- Arguments of the `replace_in_file` tool (all three keys schema-required
and supplied). -/
structure ReplaceArgs where
  path : String
  old_string : String
  new_string : String

/-- `replace_in_file` from `ghostcrew/tools/filesystem/__init__.py`: count the
occurrences of `old_string`; write the single replacement only when the count
is exactly one, otherwise return an error and leave the file unchanged.
Returns the possibly-updated filesystem together with the returned text. -/
def replace_in_file (fs : FileSystem) (args : ReplaceArgs) : FileSystem × String :=
  let filepath := args.path
  if fs.wsViolation filepath then
    (fs, "Error: Path \x27" ++ filepath ++ "\x27 is outside workspace root")
  else
    match fs.files filepath with
    | none =>
      if fs.dirs filepath then
        (fs, "Error replacing in file: " ++ filepath)
      else (fs, "Error: File not found: " ++ filepath)
    | some content =>
      let count := pyCountSub content.data args.old_string.data
      if count = 0 then
        (fs, "Error: String not found in " ++ filepath ++
          ". Make sure old_string matches exactly (including whitespace).")
      else if 1 < count then
        (fs, "Error: Found " ++ toString count ++ " matches in " ++ filepath ++
          ". Include more context in old_string to make it unique.")
      else
        let newContent := String.mk (pyReplace1 content.data args.old_string.data args.new_string.data)
        ({ fs with files := fun q => if q = filepath then some newContent else fs.files q },
         "Replaced in " ++ filepath ++ ":\n- " ++ pyRepr (pyPreview args.old_string) ++
           "\n+ " ++ pyRepr (pyPreview args.new_string))

/-- Number of positions of `h` (including the end position, matching the
Python occurrence convention for the empty needle) at which `needle` occurs:
the plain, possibly-overlapping occurrence count. -/
def occCount (h needle : List Char) : Nat :=
  ((List.range (h.length + 1)).filter (fun i => needle.isPrefixOf (h.drop i))).length

end Fsys

namespace Search

/-- Arguments dictionary of the `search_code` tool (`query` is schema-required
and read with `arguments["query"]`, the rest with `.get`). -/
structure SearchArgs where
  query : Option String
  path : Option String
  filePattern : Option String
  regex : Option Bool
  case_sensitive : Option Bool
  context_lines : Option Int

/-- The collaborators `search_code` consults inside its protective `try`
block: path existence, `re.compile` success and error text for the query, and
the outcome of walking the searchable files with the compiled pattern — the
formatted match blocks (`_format_match` output) and the number of files
searched. -/
structure SearchEnv where
  pathExists : String → Bool
  regexOk : String → Bool
  regexErr : String → String
  matchBlocks : List String
  filesSearched : Nat

/-- Maximum results to prevent context overflow. -/
def MAX_RESULTS : Nat := 20

/-- `search_code` from `ghostcrew/tools/codesearch/__init__.py`.  A missing
`query` key makes `arguments["query"]` raise `KeyError` before the protective
`try` block; every path inside the block returns a string (the catch-all
`except` turns any failure into error text). -/
def search_code (env : SearchEnv) (args : SearchArgs) : Except PyErr String :=
  match args.query with
  | none => Except.error (PyErr.keyError "query")
  | some query =>
    let searchPath := args.path.getD "."
    Except.ok (
      if env.pathExists searchPath = false then "Error: Path not found: " ++ searchPath
      else if args.regex.getD false = true ∧ env.regexOk query = false then
        "Error: Invalid regex pattern: " ++ env.regexErr query
      else if env.matchBlocks = [] then
        "No matches found for \x27" ++ query ++ "\x27 in " ++
          toString env.filesSearched ++ " files"
      else
        pyJoin "\n" (("Found " ++ toString env.matchBlocks.length ++ " matches in " ++
            toString env.filesSearched ++ " files:\n") ::
          (env.matchBlocks.take MAX_RESULTS ++
            (if MAX_RESULTS < env.matchBlocks.length then
              ["\n... and " ++ toString (env.matchBlocks.length - MAX_RESULTS) ++
                " more matches (showing first " ++ toString MAX_RESULTS ++ ")"]
            else []))))

end Search

/-! ## Helper lemmas -/

theorem data_mk (l : List Char) : (String.mk l).data = l := rfl

theorem isPrefixOf_self_append (l r : List Char) : l.isPrefixOf (l ++ r) = true := by
  induction l with
  | nil => simp [List.isPrefixOf]
  | cons a t ih => simp [List.isPrefixOf, List.cons_append, ih]

namespace Crew

theorem workerBlock_eq_none {w : WorkerRec} (h1 : w.result = "") (h2 : w.error = "") :
    workerBlock w = none := by
  simp [workerBlock, h1, h2]

theorem workerBlock_isSome {w : WorkerRec} (h : w.result ≠ "" ∨ w.error ≠ "") :
    ∃ b, workerBlock w = some b := by
  by_cases hr : w.result = ""
  · have h2 : w.error ≠ "" := h.resolve_left (fun hh => hh hr)
    refine ⟨"## " ++ w.id ++ ": " ++ w.task ++ "\nError: " ++ w.error, ?_⟩
    simp [workerBlock, hr, h2]
  · refine ⟨"## " ++ w.id ++ ": " ++ w.task ++ "\n" ++ w.result, ?_⟩
    simp [workerBlock, hr]

theorem filterMap_workerBlock_eq_nil {l : List WorkerRec}
    (h : ∀ w ∈ l, w.result = "" ∧ w.error = "") :
    l.filterMap workerBlock = [] := by
  rw [List.filterMap_eq_nil_iff]
  intro w hw
  exact workerBlock_eq_none (h w hw).1 (h w hw).2

theorem filterMap_workerBlock_ne_nil {l : List WorkerRec} {w : WorkerRec}
    (hw : w ∈ l) (h : w.result ≠ "" ∨ w.error ≠ "") :
    l.filterMap workerBlock ≠ [] := by
  obtain ⟨b, hb⟩ := workerBlock_isSome h
  intro hnil
  rw [List.filterMap_eq_nil_iff] at hnil
  exact (hnil w hw).symm.trans hb |> Option.noConfusion

end Crew

namespace Crew

theorem finish_fn_synth_eval (llm : String → String → LLMResponse)
    (pool : PoolState) (contextArg : Option String)
    (hw : pool.workers ≠ []) (hrt : pool.workers.filterMap workerBlock ≠ []) :
    finish_fn llm pool contextArg =
      { output := (llm finishSystemPrompt
          (synthPrompt (contextArg.getD "") (pool.workers.filterMap workerBlock))).content,
        finishTokens :=
          match (llm finishSystemPrompt
              (synthPrompt (contextArg.getD "") (pool.workers.filterMap workerBlock))).usage with
          | none => pool.finishTokens
          | some u => if u = [] then pool.finishTokens else pyDictGetNat u "total_tokens" 0,
        events := [CrewEvent.waitForAll, CrewEvent.generate finishSystemPrompt
          (synthPrompt (contextArg.getD "") (pool.workers.filterMap workerBlock))] } := by
  simp only [finish_fn]
  rw [if_neg hw, if_neg hrt]

theorem isPrefixOf_append_right {p s : List Char} (h : p.isPrefixOf s = true)
    (t : List Char) : p.isPrefixOf (s ++ t) = true := by
  induction p generalizing s with
  | nil => simp [List.isPrefixOf]
  | cons a p ih =>
    cases s with
    | nil => simp [List.isPrefixOf] at h
    | cons b s =>
      simp only [List.isPrefixOf, Bool.and_eq_true, beq_iff_eq] at h
      simp only [List.cons_append, List.isPrefixOf, Bool.and_eq_true, beq_iff_eq]
      exact ⟨h.1, ih h.2⟩

theorem isPrefixOf_append_false {p s : List Char} (hl : p.length ≤ s.length)
    (h : p.isPrefixOf s = false) (t : List Char) :
    p.isPrefixOf (s ++ t) = false := by
  induction p generalizing s with
  | nil => simp [List.isPrefixOf] at h
  | cons a p ih =>
    cases s with
    | nil => simp at hl
    | cons b s =>
      simp only [List.isPrefixOf] at h
      simp only [List.cons_append, List.isPrefixOf]
      cases hab : (a == b) with
      | false => rfl
      | true =>
        rw [hab] at h
        rw [Bool.true_and] at h ⊢
        have hl2 : p.length ≤ s.length := by
          simp only [List.length_cons] at hl
          omega
        exact ih hl2 h

theorem formulate_eval_noproblem (args : StrategyArgs)
    (hp : args.problem.getD "" = "") :
    formulate_strategy_fn args = "Error: problem is required." := by
  simp [formulate_strategy_fn, hp]

theorem formulate_eval_missing (args : StrategyArgs)
    (hf : args.feasible.getD true = true) (hp : args.problem.getD "" ≠ "")
    (hcs : args.candidates.getD [] = [] ∨ args.selected_id.getD "" = "") :
    formulate_strategy_fn args =
      "Error: candidates and selected_id are required when feasible=True." := by
  simp only [formulate_strategy_fn]
  rw [if_neg hp, if_neg (by simp [hf]), if_pos hcs]

theorem formulate_eval_notfound (args : StrategyArgs)
    (hf : args.feasible.getD true = true) (hp : args.problem.getD "" ≠ "")
    (hc : args.candidates.getD [] ≠ []) (hs : args.selected_id.getD "" ≠ "")
    (hfind : (args.candidates.getD []).find?
      (fun c => c.id == args.selected_id.getD "") = none) :
    formulate_strategy_fn args =
      "Error: Selected ID \x27" ++ args.selected_id.getD "" ++
        "\x27 not found in candidates." := by
  simp only [formulate_strategy_fn]
  rw [if_neg hp, if_neg (by simp [hf]), if_neg (by rw [not_or]; exact ⟨hc, hs⟩), hfind]

theorem formulate_eval_found (args : StrategyArgs) (selected : Candidate)
    (hf : args.feasible.getD true = true) (hp : args.problem.getD "" ≠ "")
    (hc : args.candidates.getD [] ≠ []) (hs : args.selected_id.getD "" ≠ "")
    (hfind : (args.candidates.getD []).find?
      (fun c => c.id == args.selected_id.getD "") = some selected) :
    formulate_strategy_fn args =
      pyJoin "\n" (decisionLines (args.candidates.getD []) selected
        (args.problem.getD "") (args.selected_id.getD "") (args.rationale.getD "")) := by
  simp only [formulate_strategy_fn]
  rw [if_neg hp, if_neg (by simp [hf]), if_neg (by rw [not_or]; exact ⟨hc, hs⟩), hfind]

theorem decisionLines_eq (cands : List Candidate) (selected : Candidate)
    (p sid r : String) :
    decisionLines cands selected p sid r =
      ("## Strategic Decision: " ++ selected.name) :: ("**Problem:** " ++ p) :: "" ::
        "**Considered Options:**" ::
        (cands.flatMap (fun c =>
          ["- **" ++ c.name ++ "** " ++ (if c.id == sid then "(SELECTED)" else ""),
           "  - Pros: " ++ c.pros, "  - Cons: " ++ c.cons, "  - Risk: " ++ c.risk]) ++
          ["", "**Rationale:** " ++ r]) := rfl

theorem pyJoin_cons_cons (sep x y : String) (xs : List String) :
    pyJoin sep (x :: y :: xs) = x ++ sep ++ pyJoin sep (y :: xs) := rfl

theorem error_not_prefixOf_decision (cands : List Candidate) (selected : Candidate)
    (p sid r : String) :
    "Error".data.isPrefixOf (pyJoin "\n" (decisionLines cands selected p sid r)).data =
      false := by
  rw [decisionLines_eq, pyJoin_cons_cons]
  simp only [String.data_append, List.append_assoc]
  exact isPrefixOf_append_false (by decide) (by decide) _

end Crew

namespace Completion

theorem hexVal_hexDig : ∀ m, m < 16 → hexVal (hexDig m) = some m := by decide

theorem scanJString_close (l : List Char) : scanJString ('"' :: l) = some ([], l) := rfl

theorem scanJString_esc_quote (l : List Char) :
    scanJString ('\\' :: '"' :: l) =
      (scanJString l).map (fun p => ('"' :: p.1, p.2)) := rfl

theorem scanJString_esc_backslash (l : List Char) :
    scanJString ('\\' :: '\\' :: l) =
      (scanJString l).map (fun p => ('\\' :: p.1, p.2)) := rfl

theorem scanJString_esc_n (l : List Char) :
    scanJString ('\\' :: 'n' :: l) =
      (scanJString l).map (fun p => ('\n' :: p.1, p.2)) := rfl

theorem scanJString_esc_t (l : List Char) :
    scanJString ('\\' :: 't' :: l) =
      (scanJString l).map (fun p => ('\t' :: p.1, p.2)) := rfl

theorem scanJString_esc_r (l : List Char) :
    scanJString ('\\' :: 'r' :: l) =
      (scanJString l).map (fun p => ('\r' :: p.1, p.2)) := rfl

theorem scanJString_esc_b (l : List Char) :
    scanJString ('\\' :: 'b' :: l) =
      (scanJString l).map (fun p => (Char.ofNat 8 :: p.1, p.2)) := rfl

theorem scanJString_esc_f (l : List Char) :
    scanJString ('\\' :: 'f' :: l) =
      (scanJString l).map (fun p => (Char.ofNat 12 :: p.1, p.2)) := rfl

theorem scanJString_esc_u (h1 h2 h3 h4 : Char) (l : List Char) (a b c2 d : Nat)
    (e1 : hexVal h1 = some a) (e2 : hexVal h2 = some b)
    (e3 : hexVal h3 = some c2) (e4 : hexVal h4 = some d) :
    scanJString ('\\' :: 'u' :: h1 :: h2 :: h3 :: h4 :: l) =
      (scanJString l).map
        (fun p => (Char.ofNat (4096 * a + 256 * b + 16 * c2 + d) :: p.1, p.2)) := by
  have hstep : scanJString ('\\' :: 'u' :: h1 :: h2 :: h3 :: h4 :: l) =
      (match hexVal h1, hexVal h2, hexVal h3, hexVal h4 with
        | some a, some b, some c2, some d =>
          (scanJString l).map
            (fun p => (Char.ofNat (4096 * a + 256 * b + 16 * c2 + d) :: p.1, p.2))
        | _, _, _, _ => none) := rfl
  rw [hstep, e1, e2, e3, e4]

theorem scanJString_lit (c : Char) (l : List Char) (h1 : ¬c = '"') (h2 : ¬c = '\\') :
    scanJString (c :: l) = (scanJString l).map (fun p => (c :: p.1, p.2)) := by
  rw [scanJString.eq_def]
  split <;> rename_i heq <;> simp at heq <;>
    first
      | exact absurd heq.1 h1
      | exact absurd heq.1 h2
      | (obtain ⟨hc, hl⟩ := heq; subst hc; subst hl; rfl)

theorem scanJString_escChar (c : Char) (l : List Char) (v r : List Char)
    (h : scanJString l = some (v, r)) :
    scanJString (escChar c ++ l) = some (c :: v, r) := by
  by_cases h1 : c = '"'
  · subst h1
    show scanJString ('\\' :: '"' :: l) = some ('"' :: v, r)
    rw [scanJString_esc_quote, h]
    rfl
  · by_cases h2 : c = '\\'
    · subst h2
      show scanJString ('\\' :: '\\' :: l) = some ('\\' :: v, r)
      rw [scanJString_esc_backslash, h]
      rfl
    · by_cases h3 : c = '\n'
      · subst h3
        show scanJString ('\\' :: 'n' :: l) = some ('\n' :: v, r)
        rw [scanJString_esc_n, h]
        rfl
      · by_cases h4 : c = '\t'
        · subst h4
          show scanJString ('\\' :: 't' :: l) = some ('\t' :: v, r)
          rw [scanJString_esc_t, h]
          rfl
        · by_cases h5 : c = '\r'
          · subst h5
            show scanJString ('\\' :: 'r' :: l) = some ('\r' :: v, r)
            rw [scanJString_esc_r, h]
            rfl
          · by_cases h6 : c = Char.ofNat 8
            · subst h6
              show scanJString ('\\' :: 'b' :: l) = some (Char.ofNat 8 :: v, r)
              rw [scanJString_esc_b, h]
              rfl
            · by_cases h7 : c = Char.ofNat 12
              · subst h7
                show scanJString ('\\' :: 'f' :: l) = some (Char.ofNat 12 :: v, r)
                rw [scanJString_esc_f, h]
                rfl
              · by_cases h8 : c.toNat < 32
                · have ha := hexVal_hexDig (c.toNat / 4096 % 16) (Nat.mod_lt _ (by omega))
                  have hb := hexVal_hexDig (c.toNat / 256 % 16) (Nat.mod_lt _ (by omega))
                  have hc := hexVal_hexDig (c.toNat / 16 % 16) (Nat.mod_lt _ (by omega))
                  have hd := hexVal_hexDig (c.toNat % 16) (Nat.mod_lt _ (by omega))
                  have hesc : escChar c = '\\' :: 'u' :: hex4 c.toNat := by
                    simp [escChar, h1, h2, h3, h4, h5, h6, h7, h8]
                  rw [hesc]
                  simp only [hex4, List.cons_append, List.nil_append]
                  rw [scanJString_esc_u _ _ _ _ _ _ _ _ _ ha hb hc hd, h]
                  have harith : 4096 * (c.toNat / 4096 % 16) + 256 * (c.toNat / 256 % 16) +
                      16 * (c.toNat / 16 % 16) + c.toNat % 16 = c.toNat := by omega
                  rw [harith, Char.ofNat_toNat]
                  rfl
                · have hesc : escChar c = [c] := by
                    simp [escChar, h1, h2, h3, h4, h5, h6, h7, h8]
                  rw [hesc]
                  simp only [List.cons_append, List.nil_append]
                  rw [scanJString_lit c l h1 h2, h]
                  rfl

theorem scanJString_render (s : List Char) (rest : List Char) :
    scanJString (s.flatMap escChar ++ '"' :: rest) = some (s, rest) := by
  induction s with
  | nil => exact scanJString_close rest
  | cons c cs ih =>
    rw [List.flatMap_cons, List.append_assoc]
    exact scanJString_escChar c _ cs rest ih

theorem parseJStr_render (s : String) (rest : List Char) :
    parseJStr (jstrL s ++ rest) = some (s, rest) := by
  have hform : jstrL s ++ rest = '"' :: (s.data.flatMap escChar ++ '"' :: rest) := by
    simp [jstrL, List.append_assoc]
  rw [hform]
  simp [parseJStr, scanJString_render]

theorem scanStrListElems_render (xs : List String) (hne : xs ≠ []) (rest : List Char) :
    ∀ fuel, xs.length ≤ fuel →
      scanStrListElems fuel (renderStrListBody xs ++ ']' :: rest) = some (xs, rest) := by
  induction xs with
  | nil => exact absurd rfl hne
  | cons x xs ih =>
    intro fuel hfuel
    cases fuel with
    | zero => simp at hfuel
    | succ m =>
      cases xs with
      | nil =>
        show scanStrListElems (m + 1) (jstrL x ++ ']' :: rest) = some ([x], rest)
        simp [scanStrListElems, parseJStr_render]
      | cons y ys =>
        have hform : renderStrListBody (x :: y :: ys) ++ ']' :: rest =
            jstrL x ++ (',' :: ' ' :: (renderStrListBody (y :: ys) ++ ']' :: rest)) := by
          simp [renderStrListBody, List.append_assoc]
        rw [hform]
        have hrec := ih (by simp) m (by simp only [List.length_cons] at hfuel ⊢; omega)
        simp [scanStrListElems, parseJStr_render, hrec]

theorem renderStrListBody_length (xs : List String) :
    xs.length ≤ (renderStrListBody xs).length := by
  induction xs with
  | nil => simp [renderStrListBody]
  | cons x xs ih =>
    cases xs with
    | nil => simp [renderStrListBody, jstrL]
    | cons y ys =>
      simp only [renderStrListBody, jstrL, List.length_append, List.length_cons] at *
      omega

theorem scanStrList_cons_quote (t : List Char) :
    scanStrList ('[' :: '"' :: t) = scanStrListElems ('"' :: t).length ('"' :: t) := rfl

theorem scanStrList_render (xs : List String) (rest : List Char) :
    scanStrList (jlistL xs ++ rest) = some (xs, rest) := by
  cases xs with
  | nil => rfl
  | cons x xs =>
    obtain ⟨t, ht⟩ : ∃ t, renderStrListBody (x :: xs) = '"' :: t := by
      cases xs with
      | nil => exact ⟨_, rfl⟩
      | cons y ys => exact ⟨_, rfl⟩
    have hform : jlistL (x :: xs) ++ rest = '[' :: '"' :: (t ++ ']' :: rest) := by
      simp [jlistL, ht, List.append_assoc]
    rw [hform, scanStrList_cons_quote]
    have hback : '"' :: (t ++ ']' :: rest) = renderStrListBody (x :: xs) ++ ']' :: rest := by
      rw [ht, List.cons_append]
    rw [hback]
    refine scanStrListElems_render (x :: xs) (by simp) rest _ ?_
    have hlen := renderStrListBody_length (x :: xs)
    simp only [List.length_append, List.length_cons] at hlen ⊢
    omega

theorem stripL_append (lit r : List Char) : stripL lit (lit ++ r) = some r := by
  unfold stripL
  rw [if_pos (isPrefixOf_self_append lit r), List.drop_left]

theorem stripL_self (lit : List Char) : stripL lit lit = some [] := by
  have h := stripL_append lit []
  simpa using h

theorem pyOrL_some (l : List String) : pyOrL (some l) = l := by
  cases l with
  | nil => rfl
  | cons a t => simp [pyOrL]

theorem parseReportFields_to_json (r : CompletionReport) :
    parseReportFields (r.to_json).data =
      some (r.status, r.summary, r.findings, r.artifacts, r.recommendations) := by
  have hdata : (r.to_json).data =
      ("\x7b\"status\": ").data ++ (jstrL r.status ++
        ((", \"summary\": ").data ++ (jstrL r.summary ++
          ((", \"findings\": ").data ++ (jlistL r.findings ++
            ((", \"artifacts\": ").data ++ (jlistL r.artifacts ++
              ((", \"recommendations\": ").data ++ (jlistL r.recommendations ++
                ("\x7d").data))))))))) := by
    simp [CompletionReport.to_json, String.data_append, data_mk, List.append_assoc]
  rw [parseReportFields, hdata]
  simp only [stripL_append, Option.some_bind, parseJStr_render, scanStrList_render,
    stripL_self, reduceIte]

theorem from_json_to_json (r : CompletionReport) :
    CompletionReport.from_json (r.to_json) = some r := by
  rw [CompletionReport.from_json, parseReportFields_to_json]
  show some (CompletionReport.make r.status r.summary (some r.findings)
    (some r.artifacts) (some r.recommendations)) = some r
  rw [CompletionReport.make, pyOrL_some, pyOrL_some, pyOrL_some]

end Completion

namespace Fsys

theorem append_drop_of_isPrefixOf {p l : List Char} (h : p.isPrefixOf l = true) :
    p ++ l.drop p.length = l := by
  induction p generalizing l with
  | nil => simp
  | cons a p ih =>
    cases l with
    | nil => simp [List.isPrefixOf] at h
    | cons b l =>
      simp only [List.isPrefixOf, Bool.and_eq_true, beq_iff_eq] at h
      obtain ⟨rfl, h2⟩ := h
      simp only [List.length_cons, List.drop_succ_cons, List.cons_append]
      rw [ih h2]

theorem pyCountSub_nil_eq_zero (old : List Char) (hold : ¬old = []) :
    pyCountSub [] old = 0 := by
  simp [pyCountSub, hold, pyCountAux]

theorem pyCountAux_cons_zero (c : Char) (t old : List Char) :
    pyCountAux old (c :: t) 0 =
      (if old.isPrefixOf (c :: t) then 1 + pyCountAux old t (old.length - 1)
       else pyCountAux old t 0) := rfl

theorem pyCountSub_cons_miss (c : Char) (t old : List Char) (hold : ¬old = [])
    (hp : old.isPrefixOf (c :: t) = false) :
    pyCountSub (c :: t) old = pyCountSub t old := by
  simp only [pyCountSub, if_neg hold, pyCountAux_cons_zero]
  rw [if_neg (by simp [hp])]

theorem pyReplace1_unfold (c : Char) (t old new : List Char) :
    pyReplace1 (c :: t) old new =
      (if old = [] then new ++ (c :: t)
       else if old.isPrefixOf (c :: t) then new ++ (c :: t).drop old.length
       else c :: pyReplace1 t old new) := rfl

theorem pyReplace1_empty_needle (h new : List Char) : pyReplace1 h [] new = new ++ h := by
  cases h with
  | nil => rfl
  | cons c t =>
    rw [pyReplace1_unfold]
    simp

theorem pyReplace1_leftmost (h old new : List Char) (hc : 0 < pyCountSub h old) :
    ∃ pre post, h = pre ++ old ++ post ∧
      pyReplace1 h old new = pre ++ new ++ post ∧
      ∀ i, i < pre.length → old.isPrefixOf (h.drop i) = false := by
  by_cases hold : old = []
  · subst hold
    refine ⟨[], h, rfl, pyReplace1_empty_needle h new, ?_⟩
    intro i hi
    simp at hi
  · induction h with
    | nil =>
      rw [pyCountSub_nil_eq_zero old hold] at hc
      exact absurd hc (by omega)
    | cons c t ih =>
      cases hp : old.isPrefixOf (c :: t) with
      | true =>
        refine ⟨[], (c :: t).drop old.length, ?_, ?_, ?_⟩
        · simp only [List.nil_append]
          exact (append_drop_of_isPrefixOf hp).symm
        · simp only [List.nil_append]
          rw [pyReplace1_unfold, if_neg hold, if_pos hp]
        · intro i hi
          simp at hi
      | false =>
        rw [pyCountSub_cons_miss c t old hold hp] at hc
        obtain ⟨pre, post, hdec, hrep, hleft⟩ := ih hc
        refine ⟨c :: pre, post, ?_, ?_, ?_⟩
        · rw [List.cons_append, List.cons_append, ← hdec]
        · rw [pyReplace1_unfold, if_neg hold, if_neg (by simp [hp]), hrep,
            List.cons_append, List.cons_append]
        · intro i hi
          cases i with
          | zero => simpa using hp
          | succ k =>
            rw [List.drop_succ_cons]
            refine hleft k ?_
            simp only [List.length_cons] at hi
            omega

end Fsys

/-! ## Claims -/

namespace Crew

/-- C1 (amended): for every finish call in which at least one worker has a
non-empty result or error and the LLM response carries a usage mapping, the
token accumulator — starting from its initial value `0` — is incremented by
exactly the `total_tokens` count reported in that usage mapping (`0` when the
key is absent), and the returned summary is exactly the LLM response content
(hence non-empty whenever that content is non-empty). -/
theorem finish_token_accounting (llm : String → String → LLMResponse)
    (pool : PoolState) (contextArg : Option String) (w : WorkerRec)
    (u : List (String × Nat)) (h0 : pool.finishTokens = 0)
    (hw : w ∈ pool.workers) (hres : w.result ≠ "" ∨ w.error ≠ "")
    (hu : (llm finishSystemPrompt
        (synthPrompt (contextArg.getD "") (pool.workers.filterMap workerBlock))).usage = some u) :
    (finish_fn llm pool contextArg).finishTokens =
      pool.finishTokens + pyDictGetNat u "total_tokens" 0 ∧
    (finish_fn llm pool contextArg).output =
      (llm finishSystemPrompt
        (synthPrompt (contextArg.getD "") (pool.workers.filterMap workerBlock))).content := by
  have hwne : pool.workers ≠ [] := List.ne_nil_of_mem hw
  have hrt : pool.workers.filterMap workerBlock ≠ [] := filterMap_workerBlock_ne_nil hw hres
  rw [finish_fn_synth_eval llm pool contextArg hwne hrt]
  refine ⟨?_, rfl⟩
  show (match (llm finishSystemPrompt
      (synthPrompt (contextArg.getD "") (pool.workers.filterMap workerBlock))).usage with
    | none => pool.finishTokens
    | some u => if u = [] then pool.finishTokens else pyDictGetNat u "total_tokens" 0) =
    pool.finishTokens + pyDictGetNat u "total_tokens" 0
  rw [hu]
  by_cases hu0 : u = []
  · subst hu0
    simp [pyDictGetNat, List.find?, h0]
  · rw [h0]
    simp [hu0]

/-- C1 witness: a concrete finish call with one completed worker and a usage
mapping reporting 7 total tokens ends with `finish_tokens = 7` and the LLM
content as summary. -/
theorem finish_token_accounting_witness :
    (finish_fn (fun _ _ => ⟨"S", some [("total_tokens", 7)]⟩)
        ⟨[⟨"agent-0", "scan", "open ports", ""⟩], 0⟩ (some "ctx")).finishTokens = 7 ∧
    (finish_fn (fun _ _ => ⟨"S", some [("total_tokens", 7)]⟩)
        ⟨[⟨"agent-0", "scan", "open ports", ""⟩], 0⟩ (some "ctx")).output = "S" :=
  finish_token_accounting (fun _ _ => ⟨"S", some [("total_tokens", 7)]⟩)
    ⟨[⟨"agent-0", "scan", "open ports", ""⟩], 0⟩ (some "ctx")
    ⟨"agent-0", "scan", "open ports", ""⟩ [("total_tokens", 7)]
    rfl (by simp) (by simp) rfl

/-- C1 counterexample: at this input every condition of the claim holds (a
worker with a non-empty result, a usage mapping on the response), yet the
returned summary is empty — the code returns the LLM content verbatim and
nothing makes it non-empty. -/
theorem finish_summary_nonempty_cex :
    (∃ w ∈ ([⟨"agent-0", "scan", "open ports", ""⟩] : List WorkerRec),
      w.result ≠ "" ∨ w.error ≠ "") ∧
    ((fun (_ _ : String) => (⟨"", some [("total_tokens", 5)]⟩ : LLMResponse))
        finishSystemPrompt
        (synthPrompt "c"
          (([⟨"agent-0", "scan", "open ports", ""⟩] : List WorkerRec).filterMap workerBlock))).usage =
      some [("total_tokens", 5)] ∧
    (finish_fn (fun _ _ => ⟨"", some [("total_tokens", 5)]⟩)
        ⟨[⟨"agent-0", "scan", "open ports", ""⟩], 0⟩ (some "c")).output = "" := by
  refine ⟨⟨⟨"agent-0", "scan", "open ports", ""⟩, by simp, by simp⟩, rfl, ?_⟩
  rfl

/-- C3: every finish call drains first (`wait_for(None)` is the first
collaborator event); when some worker record has a non-empty result or error,
the call is exactly the drain followed by a single `generate` call whose
system instruction is the fixed be-factual-and-concise text and whose user
message embeds the caller-supplied context and the concatenation of the
labelled blocks — one block per such worker, holding its id, task text and
result-or-error text — and the returned summary is that response content. -/
theorem finish_sequence (llm : String → String → LLMResponse)
    (pool : PoolState) (contextArg : Option String) :
    (finish_fn llm pool contextArg).events.head? = some CrewEvent.waitForAll ∧
    (∀ blocks : List String,
      blocks = pool.workers.filterMap (fun w =>
        if w.result ≠ "" then some ("## " ++ w.id ++ ": " ++ w.task ++ "\n" ++ w.result)
        else if w.error ≠ "" then some ("## " ++ w.id ++ ": " ++ w.task ++ "\nError: " ++ w.error)
        else none) →
      blocks ≠ [] →
      (finish_fn llm pool contextArg).events =
        [CrewEvent.waitForAll,
         CrewEvent.generate
           "You are synthesizing penetration test results. Be factual, clear, and concise."
           ("Synthesize these agent findings into a clear, concise summary.\n\nContext: " ++
             (if contextArg.getD "" = "" then "Penetration test task completed."
              else contextArg.getD "") ++
             "\n\nAgent Results:\n" ++ pyJoin "\n" blocks ++
             "\n\nProvide a unified summary of what was accomplished and key findings.")] ∧
      (finish_fn llm pool contextArg).output =
        (llm "You are synthesizing penetration test results. Be factual, clear, and concise."
          ("Synthesize these agent findings into a clear, concise summary.\n\nContext: " ++
            (if contextArg.getD "" = "" then "Penetration test task completed."
             else contextArg.getD "") ++
            "\n\nAgent Results:\n" ++ pyJoin "\n" blocks ++
            "\n\nProvide a unified summary of what was accomplished and key findings.")).content) := by
  constructor
  · simp only [finish_fn]
    by_cases hw : pool.workers = []
    · rw [if_pos hw]
      rfl
    · rw [if_neg hw]
      by_cases hrt : pool.workers.filterMap workerBlock = []
      · rw [if_pos hrt]
        rfl
      · rw [if_neg hrt]
        rfl
  · intro blocks hbdef hbne
    have hbdef' : blocks = pool.workers.filterMap workerBlock := hbdef
    subst hbdef'
    have hw : pool.workers ≠ [] := by
      intro h0
      rw [h0] at hbne
      exact hbne rfl
    rw [finish_fn_synth_eval llm pool contextArg hw hbne]
    exact ⟨rfl, rfl⟩

/-- C3 witness: the concrete drain-then-generate event sequence and returned
content for one completed worker and a supplied context. -/
theorem finish_sequence_witness :
    (finish_fn (fun _ _ => ⟨"S", some [("total_tokens", 2)]⟩)
        ⟨[⟨"agent-0", "scan", "open ports", ""⟩], 0⟩ (some "ctx")).events =
      [CrewEvent.waitForAll,
       CrewEvent.generate
         "You are synthesizing penetration test results. Be factual, clear, and concise."
         ("Synthesize these agent findings into a clear, concise summary.\n\nContext: " ++
           (if (some "ctx").getD "" = "" then "Penetration test task completed."
            else (some "ctx").getD "") ++
           "\n\nAgent Results:\n" ++ pyJoin "\n" ["## agent-0: scan\nopen ports"] ++
           "\n\nProvide a unified summary of what was accomplished and key findings.")] ∧
    (finish_fn (fun _ _ => ⟨"S", some [("total_tokens", 2)]⟩)
        ⟨[⟨"agent-0", "scan", "open ports", ""⟩], 0⟩ (some "ctx")).output = "S" :=
  (finish_sequence (fun _ _ => ⟨"S", some [("total_tokens", 2)]⟩)
      ⟨[⟨"agent-0", "scan", "open ports", ""⟩], 0⟩ (some "ctx")).2
    ["## agent-0: scan\nopen ports"] (by simp [workerBlock]) (by simp)

/-- C2: for every finish call in which no worker record has a non-empty
result or a non-empty error (including zero spawned workers), `finish_fn`
returns the caller-supplied context verbatim when a non-empty context was
supplied and a fixed fallback sentence when it was not, performs only the
drain (no `generate` call on the LLM collaborator), and leaves the token
accumulator untouched. -/
theorem finish_no_worker_output (llm : String → String → LLMResponse)
    (pool : PoolState) (contextArg : Option String)
    (h : ∀ w ∈ pool.workers, w.result = "" ∧ w.error = "") :
    (finish_fn llm pool contextArg).events = [CrewEvent.waitForAll] ∧
    (finish_fn llm pool contextArg).finishTokens = pool.finishTokens ∧
    (contextArg.getD "" ≠ "" → (finish_fn llm pool contextArg).output = contextArg.getD "") ∧
    (contextArg.getD "" = "" →
      (finish_fn llm pool contextArg).output =
        (if pool.workers = [] then "Task completed. No agents were spawned."
         else "Task completed. Agents ran but produced no results.")) := by
  unfold finish_fn
  by_cases hw : pool.workers = []
  · simp only [hw, if_pos rfl]
    refine ⟨rfl, rfl, ?_, ?_⟩ <;> intro hc <;> simp [pyOrS, hc]
  · have hfm := filterMap_workerBlock_eq_nil h
    simp only [if_neg hw, hfm, if_pos rfl]
    refine ⟨rfl, rfl, ?_, ?_⟩ <;> intro hc <;> simp [pyOrS, hc, hw]

/-- C2 witness: with no spawned workers and no context, `finish_fn` returns
the fixed fallback sentence without a `generate` event. -/
theorem finish_no_worker_output_witness :
    (finish_fn (fun _ _ => ⟨"unused", none⟩) ⟨[], 3⟩ none).events = [CrewEvent.waitForAll] ∧
    (finish_fn (fun _ _ => ⟨"unused", none⟩) ⟨[], 3⟩ none).finishTokens = 3 ∧
    (finish_fn (fun _ _ => ⟨"unused", none⟩) ⟨[], 3⟩ none).output =
      "Task completed. No agents were spawned." := by
  have h := finish_no_worker_output (fun _ _ => ⟨"unused", none⟩) ⟨[], 3⟩ none
    (by intro w hw; simp at hw)
  exact ⟨h.1, h.2.1, h.2.2.2 rfl⟩

/-- C5: `spawn_agent_fn` with an empty (or missing) task description returns
the validation error synchronously and never calls `pool.spawn`; with a
non-empty description it calls `pool.spawn` once with the given task,
priority and dependencies and echoes the freshly allocated agent id in its
confirmation text. -/
theorem spawn_agent_validation (alloc : String → Int → List String → String)
    (args : SpawnArgs) :
    (args.task.getD "" = "" →
      spawn_agent_fn alloc args =
        { spawned := none, output := "Error: task is required" }) ∧
    (args.task.getD "" ≠ "" →
      spawn_agent_fn alloc args =
        { spawned := some (args.task.getD "", args.priority.getD 1, args.depends_on.getD []),
          output := "Spawned " ++
            alloc (args.task.getD "") (args.priority.getD 1) (args.depends_on.getD []) ++
            ": " ++ args.task.getD "" }) := by
  constructor <;> intro h <;> simp [spawn_agent_fn, h]

/-- C5 witness: the validation error at an empty task, and the id-echoing
confirmation at a concrete non-empty task. -/
theorem spawn_agent_validation_witness :
    spawn_agent_fn (fun _ _ _ => "agent-0") ⟨some "", none, none⟩ =
      { spawned := none, output := "Error: task is required" } ∧
    spawn_agent_fn (fun _ _ _ => "agent-0") ⟨some "scan host", some 2, some ["agent-9"]⟩ =
      { spawned := some ("scan host", 2, ["agent-9"]),
        output := "Spawned agent-0: scan host" } := by
  refine ⟨(spawn_agent_validation (fun _ _ _ => "agent-0") ⟨some "", none, none⟩).1 rfl, ?_⟩
  exact (spawn_agent_validation (fun _ _ _ => "agent-0")
    ⟨some "scan host", some 2, some ["agent-9"]⟩).2 (by decide)

/-- C6: `formulate_strategy_fn` with a non-empty problem and `feasible` false
returns the mission-termination record rendered from the problem and the
rationale alone; any call agreeing on those two fields (whatever its
candidates and selected id) returns the identical text, and the function
reads and mutates no pool state (it is a pure function of its arguments). -/
theorem formulate_strategy_infeasible (args : StrategyArgs)
    (hf : args.feasible = some false) (hp : args.problem.getD "" ≠ "") :
    formulate_strategy_fn args =
      "## Strategic Decision: TERMINATE MISSION\n**Problem:** " ++ args.problem.getD "" ++
        "\n**Rationale:** " ++ args.rationale.getD "" ++ "\n\nMission marked as infeasible." ∧
    (∀ args2 : StrategyArgs, args2.feasible = some false →
      args2.problem = args.problem → args2.rationale = args.rationale →
      formulate_strategy_fn args2 = formulate_strategy_fn args) := by
  have h1 : formulate_strategy_fn args =
      "## Strategic Decision: TERMINATE MISSION\n**Problem:** " ++ args.problem.getD "" ++
        "\n**Rationale:** " ++ args.rationale.getD "" ++ "\n\nMission marked as infeasible." := by
    simp [formulate_strategy_fn, hf, hp]
  refine ⟨h1, ?_⟩
  intro args2 hf2 hp2 hr2
  have h2 : formulate_strategy_fn args2 =
      "## Strategic Decision: TERMINATE MISSION\n**Problem:** " ++ args2.problem.getD "" ++
        "\n**Rationale:** " ++ args2.rationale.getD "" ++ "\n\nMission marked as infeasible." := by
    have hp2' : args2.problem.getD "" ≠ "" := by rw [hp2]; exact hp
    simp [formulate_strategy_fn, hf2, hp2']
  rw [h1, h2, hp2, hr2]

/-- C7: with `feasible` true, `formulate_strategy_fn` returns a validation
error (text starting with `Error`) exactly when the problem is empty, the
candidate list is empty or missing, the selected id is empty or missing, or
no candidate carries the selected id; otherwise it returns the structured
decision record: the problem statement, every candidate with its pros, cons
and risk, the selected candidate marked `(SELECTED)`, and the rationale. -/
theorem formulate_strategy_feasible (args : StrategyArgs)
    (hf : args.feasible.getD true = true) :
    ("Error".data.isPrefixOf (formulate_strategy_fn args).data = true ↔
      (args.problem.getD "" = "" ∨ args.candidates.getD [] = [] ∨
        args.selected_id.getD "" = "" ∨
        (args.candidates.getD []).find?
          (fun c => c.id == args.selected_id.getD "") = none)) ∧
    (∀ selected, (args.candidates.getD []).find?
        (fun c => c.id == args.selected_id.getD "") = some selected →
      args.problem.getD "" ≠ "" → args.candidates.getD [] ≠ [] →
      args.selected_id.getD "" ≠ "" →
      formulate_strategy_fn args =
        pyJoin "\n" (["## Strategic Decision: " ++ selected.name,
            "**Problem:** " ++ args.problem.getD "", "", "**Considered Options:**"] ++
          (args.candidates.getD []).flatMap (fun c =>
            ["- **" ++ c.name ++ "** " ++
                (if c.id == args.selected_id.getD "" then "(SELECTED)" else ""),
             "  - Pros: " ++ c.pros, "  - Cons: " ++ c.cons, "  - Risk: " ++ c.risk]) ++
          ["", "**Rationale:** " ++ args.rationale.getD ""])) := by
  by_cases hp : args.problem.getD "" = ""
  · rw [formulate_eval_noproblem args hp]
    refine ⟨⟨fun _ => Or.inl hp, fun _ => by decide⟩, ?_⟩
    intro s _ hp2 _ _
    exact absurd hp hp2
  · by_cases hcs : args.candidates.getD [] = [] ∨ args.selected_id.getD "" = ""
    · rw [formulate_eval_missing args hf hp hcs]
      refine ⟨⟨fun _ => ?_, fun _ => by decide⟩, ?_⟩
      · rcases hcs with h | h
        · exact Or.inr (Or.inl h)
        · exact Or.inr (Or.inr (Or.inl h))
      · intro s _ _ hc2 hs2
        rcases hcs with h | h
        · exact absurd h hc2
        · exact absurd h hs2
    · rw [not_or] at hcs
      obtain ⟨hc, hs⟩ := hcs
      cases hfind : (args.candidates.getD []).find?
          (fun c => c.id == args.selected_id.getD "") with
      | none =>
        rw [formulate_eval_notfound args hf hp hc hs hfind]
        refine ⟨⟨fun _ => Or.inr (Or.inr (Or.inr rfl)), fun _ => ?_⟩, ?_⟩
        · simp only [String.data_append, List.append_assoc]
          exact isPrefixOf_append_right (by decide) _
        · intro s hfind2 _ _ _
          exact Option.noConfusion hfind2
      | some selected =>
        have hout := formulate_eval_found args selected hf hp hc hs hfind
        refine ⟨⟨fun hpre => ?_, fun hdisj => ?_⟩, ?_⟩
        · exfalso
          rw [hout, error_not_prefixOf_decision] at hpre
          exact Bool.false_ne_true hpre
        · exfalso
          rcases hdisj with h | h | h | h
          · exact hp h
          · exact hc h
          · exact hs h
          · exact Option.noConfusion h
        · intro s hf2 _ _ _
          injection hf2 with he
          subst he
          exact hout

/-- C7 witness: a concrete feasible call with one matching candidate is not a
validation error and renders the concrete decision record. -/
theorem formulate_strategy_feasible_witness :
    ("Error".data.isPrefixOf
        (formulate_strategy_fn
          ⟨some "p", some [⟨"a", "nm", "pr", "co", "Low"⟩], some "a", some "r",
            some true⟩).data = true ↔
      ((some "p").getD "" = "" ∨
        (some [(⟨"a", "nm", "pr", "co", "Low"⟩ : Candidate)]).getD [] = [] ∨
        (some "a").getD "" = "" ∨
        ((some [(⟨"a", "nm", "pr", "co", "Low"⟩ : Candidate)]).getD []).find?
          (fun c => c.id == (some "a").getD "") = none)) ∧
    (∀ selected,
        ((some [(⟨"a", "nm", "pr", "co", "Low"⟩ : Candidate)]).getD []).find?
          (fun c => c.id == (some "a").getD "") = some selected →
      (some "p").getD "" ≠ "" →
      (some [(⟨"a", "nm", "pr", "co", "Low"⟩ : Candidate)]).getD [] ≠ [] →
      (some "a").getD "" ≠ "" →
      formulate_strategy_fn
          ⟨some "p", some [⟨"a", "nm", "pr", "co", "Low"⟩], some "a", some "r",
            some true⟩ =
        pyJoin "\n" (["## Strategic Decision: " ++ selected.name,
            "**Problem:** " ++ (some "p").getD "", "", "**Considered Options:**"] ++
          ((some [(⟨"a", "nm", "pr", "co", "Low"⟩ : Candidate)]).getD []).flatMap (fun c =>
            ["- **" ++ c.name ++ "** " ++
                (if c.id == (some "a").getD "" then "(SELECTED)" else ""),
             "  - Pros: " ++ c.pros, "  - Cons: " ++ c.cons, "  - Risk: " ++ c.risk]) ++
          ["", "**Rationale:** " ++ (some "r").getD ""])) :=
  formulate_strategy_feasible
    ⟨some "p", some [⟨"a", "nm", "pr", "co", "Low"⟩], some "a", some "r", some true⟩ rfl

/-- C6 witness: two calls differing only in candidates and selected id yield
the same concrete termination record. -/
theorem formulate_strategy_infeasible_witness :
    formulate_strategy_fn
        ⟨some "no access", some [⟨"a", "n", "p", "c", "Low"⟩], some "a", some "give up", some false⟩ =
      "## Strategic Decision: TERMINATE MISSION\n**Problem:** no access\n**Rationale:** give up\n\nMission marked as infeasible." ∧
    formulate_strategy_fn ⟨some "no access", none, none, some "give up", some false⟩ =
      formulate_strategy_fn
        ⟨some "no access", some [⟨"a", "n", "p", "c", "Low"⟩], some "a", some "give up", some false⟩ := by
  refine ⟨?_, ?_⟩
  · exact (formulate_strategy_infeasible
      ⟨some "no access", some [⟨"a", "n", "p", "c", "Low"⟩], some "a", some "give up", some false⟩
      rfl (by decide)).1
  · exact (formulate_strategy_infeasible
      ⟨some "no access", some [⟨"a", "n", "p", "c", "Low"⟩], some "a", some "give up", some false⟩
      rfl (by decide)).2 ⟨some "no access", none, none, some "give up", some false⟩ rfl rfl rfl

end Crew

namespace Completion

/-- C8: serializing any completion report with `to_json` and parsing the
result with `from_json` yields a report equal field for field to the
original; in particular this holds for the report built from
`status = "partial"`, `summary = "x"`, `findings = ["f1"]` and empty
artifact and recommendation lists. -/
theorem completion_report_roundtrip :
    (∀ r : CompletionReport, CompletionReport.from_json (r.to_json) = some r) ∧
    CompletionReport.from_json
        ((CompletionReport.make "partial" "x" (some ["f1"]) (some []) (some [])).to_json) =
      some (CompletionReport.make "partial" "x" (some ["f1"]) (some []) (some [])) :=
  ⟨from_json_to_json, from_json_to_json _⟩

/-- C9: for every arguments dictionary, the control `finish` tool output
starts with the sentinel, `is_task_complete` holds on it, and
`extract_completion_report` reconstructs exactly the report built from the
arguments with the documented defaults; conversely, on any string not
starting with the sentinel, `is_task_complete` is false,
`extract_completion_report` returns nothing, and
`extract_completion_summary` returns the string unchanged. -/
theorem finish_signal_roundtrip :
    (∀ args : FinishToolArgs,
      TASK_COMPLETE_SIGNAL.data.isPrefixOf (finish args).data = true ∧
      is_task_complete (finish args) = true ∧
      extract_completion_report (finish args) = some (reportOfArgs args)) ∧
    (∀ s : String, TASK_COMPLETE_SIGNAL.data.isPrefixOf s.data = false →
      is_task_complete s = false ∧ extract_completion_report s = none ∧
      extract_completion_summary s = s) := by
  constructor
  · intro args
    have hdata : (finish args).data =
        (TASK_COMPLETE_SIGNAL.data ++ [':']) ++ ((reportOfArgs args).to_json).data := by
      show ((TASK_COMPLETE_SIGNAL ++ ":") ++ (reportOfArgs args).to_json).data = _
      rw [String.data_append, String.data_append]
    have hpre : TASK_COMPLETE_SIGNAL.data.isPrefixOf (finish args).data = true := by
      rw [hdata, List.append_assoc]
      exact isPrefixOf_self_append _ _
    have hit : is_task_complete (finish args) = true := hpre
    refine ⟨hpre, hit, ?_⟩
    have hdrop : (finish args).data.drop (TASK_COMPLETE_SIGNAL.length + 1) =
        ((reportOfArgs args).to_json).data := by
      rw [hdata]
      rw [show TASK_COMPLETE_SIGNAL.length + 1 = (TASK_COMPLETE_SIGNAL.data ++ [':']).length
        from by decide]
      exact List.drop_left _ _
    have hj : CompletionReport.from_json
        (String.mk ((finish args).data.drop (TASK_COMPLETE_SIGNAL.length + 1))) =
        some (reportOfArgs args) := by
      rw [hdrop]
      exact from_json_to_json _
    rw [extract_completion_report, if_pos hit, hj]
  · intro s hns
    have h1 : is_task_complete s = false := hns
    refine ⟨h1, ?_, ?_⟩
    · rw [extract_completion_report, if_neg (by rw [h1]; exact Bool.false_ne_true)]
    · rw [extract_completion_summary, if_neg (by rw [h1]; exact Bool.false_ne_true)]

/-- C9 witness: concrete instances of both directions — a concrete tool call
whose report round-trips through the sentinel string, and a plain string
without the sentinel which the extractors pass through. -/
theorem finish_signal_roundtrip_witness :
    (TASK_COMPLETE_SIGNAL.data.isPrefixOf
        (finish ⟨some "partial", some "x", some ["f1"], none, none⟩).data = true ∧
      is_task_complete (finish ⟨some "partial", some "x", some ["f1"], none, none⟩) = true ∧
      extract_completion_report (finish ⟨some "partial", some "x", some ["f1"], none, none⟩) =
        some (reportOfArgs ⟨some "partial", some "x", some ["f1"], none, none⟩)) ∧
    (is_task_complete "hello" = false ∧ extract_completion_report "hello" = none ∧
      extract_completion_summary "hello" = "hello") :=
  ⟨finish_signal_roundtrip.1 ⟨some "partial", some "x", some ["f1"], none, none⟩,
   finish_signal_roundtrip.2 "hello" (by decide)⟩

end Completion

namespace Fsys

/-- C10 (amended): for every existing file (inside the workspace),
`replace_in_file` writes only when the non-overlapping left-to-right
occurrence count of `old_string` in the content (Python `str.count`) is
exactly one, in which case the leftmost occurrence is replaced by
`new_string` and no other file changes; when that count is zero or greater
than one it returns an error message and the filesystem is unchanged. -/
theorem replace_in_file_single_count (fs : FileSystem) (args : ReplaceArgs)
    (content : String) (hws : fs.wsViolation args.path = false)
    (hf : fs.files args.path = some content) :
    (pyCountSub content.data args.old_string.data ≠ 1 →
      (replace_in_file fs args).1 = fs ∧
      "Error".data.isPrefixOf ((replace_in_file fs args).2).data = true) ∧
    (pyCountSub content.data args.old_string.data = 1 →
      ((replace_in_file fs args).1.files args.path =
          some (String.mk (pyReplace1 content.data args.old_string.data args.new_string.data)) ∧
        (∀ q, q ≠ args.path → (replace_in_file fs args).1.files q = fs.files q) ∧
        (∃ pre post,
          content.data = pre ++ args.old_string.data ++ post ∧
          pyReplace1 content.data args.old_string.data args.new_string.data =
            pre ++ args.new_string.data ++ post ∧
          ∀ i, i < pre.length →
            args.old_string.data.isPrefixOf (content.data.drop i) = false))) := by
  have heval : replace_in_file fs args =
      (if pyCountSub content.data args.old_string.data = 0 then
        (fs, "Error: String not found in " ++ args.path ++
          ". Make sure old_string matches exactly (including whitespace).")
      else if 1 < pyCountSub content.data args.old_string.data then
        (fs, "Error: Found " ++ toString (pyCountSub content.data args.old_string.data) ++
          " matches in " ++ args.path ++ ". Include more context in old_string to make it unique.")
      else
        ({ fs with
            files := fun q =>
              if q = args.path then
                some (String.mk
                  (pyReplace1 content.data args.old_string.data args.new_string.data))
              else fs.files q },
         "Replaced in " ++ args.path ++ ":\n- " ++ pyRepr (pyPreview args.old_string) ++
           "\n+ " ++ pyRepr (pyPreview args.new_string))) := by
    simp only [replace_in_file]
    rw [if_neg (by rw [hws]; exact Bool.false_ne_true), hf]
  constructor
  · intro hne
    by_cases h0 : pyCountSub content.data args.old_string.data = 0
    · rw [heval, if_pos h0]
      refine ⟨rfl, ?_⟩
      simp only [String.data_append, List.append_assoc]
      exact Crew.isPrefixOf_append_right (by decide) _
    · have h2 : 1 < pyCountSub content.data args.old_string.data := by omega
      rw [heval, if_neg h0, if_pos h2]
      refine ⟨rfl, ?_⟩
      simp only [String.data_append, List.append_assoc]
      exact Crew.isPrefixOf_append_right (by decide) _
  · intro h1
    rw [heval, if_neg (by omega), if_neg (by omega)]
    refine ⟨by simp, ?_, ?_⟩
    · intro q hq
      simp [hq]
    · exact pyReplace1_leftmost content.data args.old_string.data args.new_string.data
        (by omega)

/-- C10 witness: on a file containing `abc`, replacing the unique occurrence
of `b` writes `aXc`. -/
theorem replace_in_file_single_count_witness :
    (replace_in_file
        ⟨fun _ => false, fun q => if q = "f" then some "abc" else none, fun _ => false⟩
        ⟨"f", "b", "X"⟩).1.files "f" = some "aXc" := by
  have h := (replace_in_file_single_count
      ⟨fun _ => false, fun q => if q = "f" then some "abc" else none, fun _ => false⟩
      ⟨"f", "b", "X"⟩ "abc" rfl (by decide)).2 (by decide)
  rw [h.1]
  decide

/-- C10 counterexample: in the content `aaa` the string `aa` occurs at two
(overlapping) positions, yet `replace_in_file` writes — Python counts
non-overlapping matches and sees one — so the claim as stated (writes only
when `old_string` occurs exactly once; an occurrence count greater than one
leaves the file unchanged) is false at this input. -/
theorem replace_in_file_overlap_cex :
    occCount "aaa".data "aa".data = 2 ∧
    (replace_in_file
        ⟨fun _ => false, fun q => if q = "f" then some "aaa" else none, fun _ => false⟩
        ⟨"f", "aa", "b"⟩).1.files "f" = some "ba" := by
  exact ⟨by decide, by decide⟩

end Fsys

/-- C4 (amended): for every arguments dictionary that supplies the keys the
schema marks as required, the `search_code` and `read_file` collaborator
tools terminate by returning a text value and never raise — every failure
inside the protective handler is reported as error text.  (A dictionary
missing a required key instead raises `KeyError` before the handler.) -/
theorem tool_execute_never_raises :
    (∀ (env : Search.SearchEnv) (args : Search.SearchArgs) (q : String),
      args.query = some q → ∃ s, Search.search_code env args = Except.ok s) ∧
    (∀ (fs : Fsys.FileSystem) (args : Fsys.ReadArgs) (p : String),
      args.path = some p → ∃ s, Fsys.read_file fs args = Except.ok s) := by
  constructor
  · intro env args q hq
    simp only [Search.search_code]
    rw [hq]
    exact ⟨_, rfl⟩
  · intro fs args p hp
    simp only [Fsys.read_file]
    rw [hp]
    exact ⟨_, rfl⟩

/-- C4 witness: concrete calls with the required keys present return `ok`
text for both tools. -/
theorem tool_execute_never_raises_witness :
    (∃ s, Search.search_code ⟨fun _ => true, fun _ => true, fun _ => "", ["m"], 2⟩
      ⟨some "q", none, none, none, none, none⟩ = Except.ok s) ∧
    (∃ s, Fsys.read_file
      ⟨fun _ => false, fun q => if q = "x" then some "hello\nworld" else none, fun _ => false⟩
      ⟨some "x", none, none⟩ = Except.ok s) :=
  ⟨tool_execute_never_raises.1 ⟨fun _ => true, fun _ => true, fun _ => "", ["m"], 2⟩
      ⟨some "q", none, none, none, none, none⟩ "q" rfl,
   tool_execute_never_raises.2
      ⟨fun _ => false, fun q => if q = "x" then some "hello\nworld" else none, fun _ => false⟩
      ⟨some "x", none, none⟩ "x" rfl⟩

/-- C4 counterexample: with the schema-required `path` key missing from the
arguments dictionary, `read_file` raises `KeyError` (modelled as
`Except.error`) before its protective handler, so it does not return a text
value — the claim quantified over dictionaries missing required keys is
false. -/
theorem read_file_missing_key_cex :
    Fsys.read_file ⟨fun _ => false, fun _ => none, fun _ => false⟩ ⟨none, none, none⟩ =
      Except.error (PyErr.keyError "path") ∧
    ¬∃ s, Fsys.read_file ⟨fun _ => false, fun _ => none, fun _ => false⟩
      ⟨none, none, none⟩ = Except.ok s := by
  refine ⟨rfl, ?_⟩
  rintro ⟨s, hs⟩
  rw [show Fsys.read_file ⟨fun _ => false, fun _ => none, fun _ => false⟩
    ⟨none, none, none⟩ = Except.error (PyErr.keyError "path") from rfl] at hs
  exact Except.noConfusion hs

end Spec2Proof
